import Mathlib

/-!
Shallow embedding of the trello2md exporter (`main.go`).

The program is a sequential fetch-and-format pipeline: it retrieves boards,
locates a list by exact name, sorts the list's cards by last-activity
timestamp, and renders each card's sections to standard output as Markdown.

Modelling decisions:
* Network fetches (the external Trello client's `Board`, `Lists`, `Cards`,
  `Members`, `Checklists`, `Actions`, `Attachments` calls) are modelled as
  `Except String` values carried by the entities (the result the call would
  yield on this run).
* `fmt.Printf` output is accumulated into a `String`; each pipeline stage
  returns the text it wrote together with an optional `Failure`.
* Go distinguishes a returned `error` from a `panic`.  The sort comparators
  in `getCards` and `getCardComments` call `log.Panic` on a timestamp-parse
  failure, while `printCardTitle` and `printCardComment` return the parse
  error.  `Failure` keeps the two apart.  Go's `sort.Slice` only invokes the
  comparator on slices of length at least two, and then every element is
  parsed by at least one comparison, so the model panics exactly when the
  slice has two or more elements and some element's timestamp is malformed.
* `time.Parse(time.RFC3339, s)` and `Format("2006-01-02")` are external
  standard-library collaborators; they are modelled for UTC timestamps of
  the shape `YYYY-MM-DDThh:mm:ssZ` (the shape the claims exercise), with
  digit and range validation, ordered chronologically via a mixed-radix key.
-/

namespace Trello2md

/-- A parsed `time.Time` restricted to the fields the program uses. -/
structure GoTime where
  year : Nat
  month : Nat
  day : Nat
  hour : Nat
  minute : Nat
  second : Nat
deriving Repr, DecidableEq

/-- Chronological order key: strictly monotone in each field (fields are
range-checked at parse time, so the mixed radix never overflows a digit). -/
def GoTime.key (t : GoTime) : Nat :=
  ((((t.year * 13 + t.month) * 32 + t.day) * 24 + t.hour) * 60 + t.minute) * 60 + t.second

def digitVal (c : Char) : Option Nat :=
  if c.isDigit then some (c.toNat - 48) else none

def parse2 (a b : Char) : Option Nat := do
  let x ← digitVal a
  let y ← digitVal b
  pure (x * 10 + y)

def parse4 (a b c d : Char) : Option Nat := do
  let x ← parse2 a b
  let y ← parse2 c d
  pure (x * 100 + y)

/-- Go `time.Parse(time.RFC3339, s)` for UTC `Z` timestamps without fractional
seconds: `YYYY-MM-DDThh:mm:ssZ`, with field range checks. -/
def timeParseRFC3339 (s : String) : Option GoTime :=
  match s.data with
  | [y1, y2, y3, y4, q1, mo1, mo2, q2, d1, d2, tt, h1, h2, q3, mi1, mi2, q4, s1, s2, zz] =>
    if q1 = '-' ∧ q2 = '-' ∧ tt = 'T' ∧ q3 = ':' ∧ q4 = ':' ∧ zz = 'Z' then do
      let y ← parse4 y1 y2 y3 y4
      let mo ← parse2 mo1 mo2
      let d ← parse2 d1 d2
      let h ← parse2 h1 h2
      let mi ← parse2 mi1 mi2
      let se ← parse2 s1 s2
      if 1 ≤ mo ∧ mo ≤ 12 ∧ 1 ≤ d ∧ d ≤ 31 ∧ h ≤ 23 ∧ mi ≤ 59 ∧ se ≤ 59 then
        some ⟨y, mo, d, h, mi, se⟩
      else
        none
    else none
  | _ => none

def pad2 (n : Nat) : String :=
  if n < 10 then "0" ++ toString n else toString n

def pad4 (n : Nat) : String :=
  if n < 10 then "000" ++ toString n
  else if n < 100 then "00" ++ toString n
  else if n < 1000 then "0" ++ toString n
  else toString n

/-- Go `t.Format("2006-01-02")`. -/
def GoTime.formatDate (t : GoTime) : String :=
  pad4 t.year ++ "-" ++ pad2 t.month ++ "-" ++ pad2 t.day

/-- Outcome of a stage that can fail.  Go's `log.Panic` (used inside the sort
comparators) is a `panic`; a returned `error` value is an `err`. -/
inductive Failure where
  | err (msg : String)
  | panic (msg : String)
deriving Repr, DecidableEq

def Failure.isErr : Failure → Bool
  | .err _ => true
  | .panic _ => false

/-! ### Data model (trello entities, with fetch results attached) -/

instance {ε α : Type} [DecidableEq ε] [DecidableEq α] : DecidableEq (Except ε α) :=
  fun x y =>
    match x, y with
    | .ok a, .ok b =>
      if h : a = b then isTrue (by rw [h])
      else isFalse (by intro hh; cases hh; exact h rfl)
    | .error a, .error b =>
      if h : a = b then isTrue (by rw [h])
      else isFalse (by intro hh; cases hh; exact h rfl)
    | .ok _, .error _ => isFalse (by intro hh; cases hh)
    | .error _, .ok _ => isFalse (by intro hh; cases hh)

structure Label where
  name : String
deriving Repr, DecidableEq

structure Member where
  fullName : String
deriving Repr, DecidableEq

structure CheckItem where
  name : String
  state : String
deriving Repr, DecidableEq

structure Checklist where
  name : String
  checkItems : List CheckItem
deriving Repr, DecidableEq

structure Action where
  type : String
  date : String
  memberCreatorFullName : String
  dataText : String
deriving Repr, DecidableEq

structure Attachment where
  name : String
  url : String
deriving Repr, DecidableEq

structure Card where
  name : String
  url : String
  desc : String
  dateLastActivity : String
  labels : List Label
  membersR : Except String (List Member)
  checklistsR : Except String (List Checklist)
  actionsR : Except String (List Action)
  attachmentsR : Except String (List Attachment)
deriving Repr, DecidableEq

structure TrelloList where
  name : String
  cardsR : Except String (List Card)
deriving Repr, DecidableEq

structure Board where
  name : String
  listsR : Except String (List TrelloList)
deriving Repr, DecidableEq

/-- The boolean toggle bundle read from the CLI context. -/
structure Config where
  showLabelsAndMembers : Bool
  showDescription : Bool
  showChecklists : Bool
  showComments : Bool
  showAttachments : Bool
deriving Repr, DecidableEq

/-! ### The pipeline, function by function from `main.go` -/

/-- Concatenation of the texts a Go print loop writes, in order. -/
def joinS : List String → String
  | [] => ""
  | s :: rest => s ++ joinS rest

/-- Go `printDate`: `fmt.Printf("## %s\n", time.Now().Format(dateFormat))`;
`time.Now()` is passed in as the already-formatted `today` string. -/
def printDate (today : String) : String := "## " ++ today ++ "\n"

/-- Go `getBoards`: fetch each board id in order, aborting on the first error. -/
def getBoards (fetchBoard : String → Except String Board) :
    List String → Except String (List Board)
  | [] => .ok []
  | bid :: rest => do
    let b ← fetchBoard bid
    let bs ← getBoards fetchBoard rest
    pure (b :: bs)

/-- Go `printBoard`: `fmt.Printf("### %s\n", board.Name)`. -/
def printBoard (b : Board) : String := "### " ++ b.name ++ "\n"

/-- Go `getList`: scan the board's lists in API order, return the first whose
name equals the filter exactly; error if none matches. -/
def getList (b : Board) (listFilter : String) : Except String TrelloList := do
  let lists ← b.listsR
  match lists.find? (fun l => l.name == listFilter) with
  | some l => .ok l
  | none => .error "no matching list found"

/-- Sort key of a card: its parsed last-activity instant. -/
def cardKey (c : Card) : Nat :=
  ((timeParseRFC3339 c.dateLastActivity).map GoTime.key).getD 0

/-- A card whose `dateLastActivity` does not parse as RFC3339. -/
def cardDateBad (c : Card) : Bool :=
  (timeParseRFC3339 c.dateLastActivity).isNone

/-- The comparator of `getCards`'s `sort.Slice` call (non-strict form). -/
def cardLE (a b : Card) : Prop := cardKey a ≤ cardKey b

instance : DecidableRel cardLE := fun a b => Nat.decLe (cardKey a) (cardKey b)

instance : IsTotal Card cardLE := ⟨fun a b => Nat.le_total (cardKey a) (cardKey b)⟩

instance : IsTrans Card cardLE := ⟨fun _ _ _ h1 h2 => Nat.le_trans h1 h2⟩

/-- Go `getCards`: fetch the list's cards and sort ascending by parsed
last-activity.  The Go comparator `log.Panic`s on a parse failure; the
comparator runs only when the slice has at least two elements, and then every
element is parsed by some comparison. -/
def getCards (l : TrelloList) : Except Failure (List Card) :=
  match l.cardsR with
  | .error e => .error (.err e)
  | .ok cards =>
    if 2 ≤ cards.length ∧ cards.any cardDateBad then
      .error (.panic "time parse error")
    else
      .ok (List.insertionSort cardLE cards)

/-- Go `printCardTitle`: parse the last-activity date (returning the error on
failure) and format the title line. -/
def printCardTitle (card : Card) : Except String String :=
  match timeParseRFC3339 card.dateLastActivity with
  | none => .error "cannot parse time"
  | some t =>
    .ok ("#### **" ++ t.formatDate ++ "** [" ++ card.name ++ "](" ++ card.url ++ ")\n")

/-- The backtick-quoted, space-separated label text of
`printCardLabelsAndMembers`'s first loop. -/
def labelsText (labels : List Label) : String :=
  joinS (labels.map (fun l => "`" ++ l.name ++ "` "))

/-- Go `printCardLabelsAndMembers`: prints `"##### "` and the label text first,
then fetches members; on fetch failure the already-printed text stands and
the closing `- **[...]**` is never written. -/
def printCardLabelsAndMembers (card : Card) : String × Option Failure :=
  let pre := "##### " ++ labelsText card.labels
  match card.membersR with
  | .error e => (pre, some (.err e))
  | .ok members =>
    (pre ++ "- **[" ++ String.intercalate ", " (members.map Member.fullName) ++ "]**\n",
      none)

/-- Go `printCardDescription`: `fmt.Printf("%s\n\n", card.Desc)`. -/
def printCardDescription (card : Card) : String := card.desc ++ "\n\n"

/-- Go `getCardCheckLists`: the checklist fetch. -/
def getCardCheckLists (card : Card) : Except String (List Checklist) :=
  card.checklistsR

/-- The per-item loop body of `printCardChecklist`. -/
def checkItemsText : List CheckItem → String
  | [] => ""
  | i :: rest =>
    (if i.state == "complete" then "- [x] " ++ i.name ++ "\n"
     else "- [ ] " ++ i.name ++ "\n") ++ checkItemsText rest

/-- Go `printCardChecklist`: name line, one line per check item, blank line. -/
def printCardChecklist (cl : Checklist) : String :=
  cl.name ++ "\n" ++ checkItemsText cl.checkItems ++ "\n"

/-- Sort key of a comment action: its parsed date. -/
def actionKey (a : Action) : Nat :=
  ((timeParseRFC3339 a.date).map GoTime.key).getD 0

/-- An action whose `date` does not parse as RFC3339. -/
def actionDateBad (a : Action) : Bool :=
  (timeParseRFC3339 a.date).isNone

/-- The comparator of `getCardComments`'s `sort.Slice` call. -/
def actionLE (a b : Action) : Prop := actionKey a ≤ actionKey b

instance : DecidableRel actionLE := fun a b => Nat.decLe (actionKey a) (actionKey b)

instance : IsTotal Action actionLE := ⟨fun a b => Nat.le_total (actionKey a) (actionKey b)⟩

instance : IsTrans Action actionLE := ⟨fun _ _ _ h1 h2 => Nat.le_trans h1 h2⟩

/-- Go `getCardComments`: fetch actions, keep only type `"commentCard"`, sort
ascending by date.  The comparator panic behaviour is as in `getCards`. -/
def getCardComments (card : Card) : Except Failure (List Action) :=
  match card.actionsR with
  | .error e => .error (.err e)
  | .ok actions =>
    let commentCardActions := actions.filter (fun a => a.type == "commentCard")
    if 2 ≤ commentCardActions.length ∧ commentCardActions.any actionDateBad then
      .error (.panic "time parse error")
    else
      .ok (List.insertionSort actionLE commentCardActions)

/-- The call `strings.Replace(text, "\n", "\n> ", -1)` at the character level: the
pattern is the single newline character. -/
def quoteChars : List Char → List Char
  | [] => []
  | c :: rest =>
    if c = '\n' then '\n' :: '>' :: ' ' :: quoteChars rest
    else c :: quoteChars rest

def replaceNewlines (s : String) : String := ⟨quoteChars s.data⟩

/-- Go `printCardComment`: parse the action date (returning the error on
failure), then the header line and the quoted body with a trailing blank. -/
def printCardComment (a : Action) : Except String String :=
  match timeParseRFC3339 a.date with
  | none => .error "cannot parse time"
  | some t =>
    .ok ("> **" ++ t.formatDate ++ "** - **" ++ a.memberCreatorFullName ++ ":**\n"
      ++ "> " ++ replaceNewlines a.dataText ++ "\n\n")

/-- Go `getCardAttachments`: the attachment fetch. -/
def getCardAttachments (card : Card) : Except String (List Attachment) :=
  card.attachmentsR

/-- Go `printCardAttachment`: link line plus image-embed line and a blank. -/
def printCardAttachment (a : Attachment) : String :=
  "[" ++ a.name ++ "](" ++ a.url ++ ")\n" ++ "![](" ++ a.url ++ ")\n\n"

/-! ### The `exportBoards` control flow -/

/-- The comment loop of `exportBoards`: print each comment, abort on error. -/
def renderComments : List Action → String × Option Failure
  | [] => ("", none)
  | a :: rest =>
    match printCardComment a with
    | .error e => ("", some (.err e))
    | .ok s =>
      let (s2, o) := renderComments rest
      (s ++ s2, o)

/-- The per-card body of `exportBoards`'s inner loop, in source order:
title, labels and members, description, attachments, checklists, comments,
each conditional on its toggle except the title. -/
def renderCard (cfg : Config) (card : Card) : String × Option Failure :=
  match printCardTitle card with
  | .error e => ("", some (.err e))
  | .ok title =>
    let lm := if cfg.showLabelsAndMembers then printCardLabelsAndMembers card
              else ("", none)
    match lm with
    | (lmS, some f) => (title ++ lmS, some f)
    | (lmS, none) =>
      let descS := if cfg.showDescription then printCardDescription card else ""
      match (if cfg.showAttachments then getCardAttachments card else .ok []) with
      | .error e => (title ++ lmS ++ descS, some (.err e))
      | .ok atts =>
        let attS := joinS (atts.map printCardAttachment)
        match (if cfg.showChecklists then getCardCheckLists card else .ok []) with
        | .error e => (title ++ lmS ++ descS ++ attS, some (.err e))
        | .ok cls =>
          let clS := joinS (cls.map printCardChecklist)
          match (if cfg.showComments then getCardComments card else .ok []) with
          | .error f => (title ++ lmS ++ descS ++ attS ++ clS, some f)
          | .ok cmts =>
            let (cmtS, cmtO) := renderComments cmts
            (title ++ lmS ++ descS ++ attS ++ clS ++ cmtS, cmtO)

/-- The card loop of `exportBoards`: render each card, abort on failure. -/
def renderCards (cfg : Config) : List Card → String × Option Failure
  | [] => ("", none)
  | c :: rest =>
    match renderCard cfg c with
    | (s, some f) => (s, some f)
    | (s, none) =>
      let (s2, o) := renderCards cfg rest
      (s ++ s2, o)

/-- The per-board body of `exportBoards`'s outer loop: board header, list
resolution, card fetch and sort, then the card loop. -/
def renderBoard (cfg : Config) (listFilter : String) (b : Board) :
    String × Option Failure :=
  let hdr := printBoard b
  match getList b listFilter with
  | .error e => (hdr, some (.err e))
  | .ok l =>
    match getCards l with
    | .error f => (hdr, some f)
    | .ok cards =>
      let (s, o) := renderCards cfg cards
      (hdr ++ s, o)

/-- The board loop of `exportBoards`: render each board, abort on failure. -/
def renderBoards (cfg : Config) (listFilter : String) :
    List Board → String × Option Failure
  | [] => ("", none)
  | b :: rest =>
    match renderBoard cfg listFilter b with
    | (s, some f) => (s, some f)
    | (s, none) =>
      let (s2, o) := renderBoards cfg listFilter rest
      (s ++ s2, o)

/-- Go `exportBoards` (client construction assumed successful; `fetchBoard` is
the client's board lookup, `today` the formatted current date): print the
date header, fetch the boards, then run the board loop. -/
def exportBoards (fetchBoard : String → Except String Board) (today : String)
    (cfg : Config) (boardIds : List String) (listFilter : String) :
    String × Option Failure :=
  let dateS := printDate today
  match getBoards fetchBoard boardIds with
  | .error e => (dateS, some (.err e))
  | .ok boards =>
    let (s, o) := renderBoards cfg listFilter boards
    (dateS ++ s, o)

/-! ### Section blocks, for stating the rendering contract -/

/-- The line `printCardChecklist` writes for one check item. -/
def checkItemLine (i : CheckItem) : String :=
  if i.state = "complete" then "- [x] " ++ i.name ++ "\n"
  else "- [ ] " ++ i.name ++ "\n"

/-- The title block of a card (empty when the date does not parse). -/
def titleBlock (c : Card) : String :=
  match printCardTitle c with
  | .ok s => s
  | .error _ => ""

/-- The complete labels-and-members block of a card (successful fetch). -/
def lmBlock (c : Card) : String := (printCardLabelsAndMembers c).1

/-- The block `printCardComment` writes for one comment action (empty when
the date does not parse). -/
def commentBlock (a : Action) : String :=
  match printCardComment a with
  | .ok s => s
  | .error _ => ""

/-- Split a character sequence into its newline-separated lines. -/
def splitLinesC : List Char → List (List Char)
  | [] => [[]]
  | c :: rest =>
    if c = '\n' then [] :: splitLinesC rest
    else
      match splitLinesC rest with
      | [] => [[c]]
      | l :: ls => (c :: l) :: ls

/-- The newline-separated lines of a string. -/
def linesOf (s : String) : List String :=
  (splitLinesC s.data).map (fun l => ⟨l⟩)

/-! ### Concrete runs (inputs used to exercise the theorems) -/

/-- A card with every sub-resource fetch succeeding and empty. -/
def mkCard (n d : String) : Card :=
  ⟨n, "u", "", d, [], .ok [], .ok [], .ok [], .ok []⟩

/-- A comment-action builder. -/
def mkAction (ty d who txt : String) : Action := ⟨ty, d, who, txt⟩

def cfgAll : Config := ⟨true, true, true, true, true⟩

def cfgNone : Config := ⟨false, false, false, false, false⟩

/-- The end-to-end scenario card: `"Fix bug"` in list `"Done"` of `"B1"`. -/
def cardC8 : Card :=
  { name := "Fix bug", url := "<url>", desc := "Fixed it"
    dateLastActivity := "2024-01-05T10:00:00Z"
    labels := []
    membersR := .ok []
    checklistsR := .ok [⟨"QA", [⟨"Test", "complete"⟩, ⟨"Deploy", "incomplete"⟩]⟩]
    actionsR := .ok []
    attachmentsR := .ok [] }

def listC8 : TrelloList := ⟨"Done", .ok [cardC8]⟩

def boardB1 : Board := ⟨"B1", .ok [listC8]⟩

def fetchC8 : String → Except String Board := fun _ => .ok boardB1

/-- A board with a duplicate list name, for the first-match claim. -/
def boardW : Board :=
  ⟨"W", .ok [⟨"Todo", .ok []⟩, ⟨"Done", .ok []⟩, ⟨"Done", .error "dup"⟩]⟩

/-- Three well-formed cards with out-of-order last-activity dates. -/
def cardX : Card := mkCard "X" "2024-03-01T00:00:00Z"

def cardY : Card := mkCard "Y" "2024-01-01T00:00:00Z"

def cardZ : Card := mkCard "Z" "2024-02-01T00:00:00Z"

def listS : TrelloList := ⟨"Done", .ok [cardX, cardY, cardZ]⟩

/-- Actions of mixed type and out-of-order dates. -/
def actLate : Action := mkAction "commentCard" "2024-02-01T00:00:00Z" "Ann" "later"

def actOther : Action := mkAction "updateCard" "2024-01-15T00:00:00Z" "Bob" "moved"

def actEarly : Action := mkAction "commentCard" "2024-01-01T00:00:00Z" "Bob" "earlier"

def cardActs : Card :=
  { mkCard "A" "2024-01-05T10:00:00Z" with actionsR := .ok [actLate, actOther, actEarly] }

/-- A comment whose body holds an embedded newline. -/
def actW : Action := mkAction "commentCard" "2024-01-05T10:00:00Z" "Ann" "line1\nline2"

/-- A labelled card whose member fetch fails. -/
def cardM : Card :=
  { mkCard "M" "2024-01-05T10:00:00Z" with
    labels := [⟨"red"⟩, ⟨"blue"⟩], membersR := .error "boom" }

/-- A card whose last-activity date is malformed. -/
def cardBad : Card := mkCard "Bad" "not-a-date"

/-- A two-card list containing a malformed date: sorting panics. -/
def listBad : TrelloList := ⟨"Done", .ok [cardX, cardBad]⟩

def boardBad : Board := ⟨"BB", .ok [listBad]⟩

def fetchBad : String → Except String Board := fun _ => .ok boardBad

/-- A client whose board lookup fails. -/
def fetchErr : String → Except String Board := fun _ => .error "no board"

/-- A board whose list fetch fails. -/
def boardLE : Board := ⟨"E", .error "neterr"⟩

/-- A list whose card fetch fails. -/
def listCE : TrelloList := ⟨"Done", .error "cards err"⟩

/-- A card whose attachment fetch fails. -/
def cardAttE : Card :=
  { mkCard "AE" "2024-01-05T10:00:00Z" with attachmentsR := .error "atterr" }

/-- A card whose checklist fetch fails. -/
def cardClE : Card :=
  { mkCard "CE" "2024-01-05T10:00:00Z" with checklistsR := .error "clerr" }

/-- A card whose action fetch fails. -/
def cardActE : Card :=
  { mkCard "XE" "2024-01-05T10:00:00Z" with actionsR := .error "acterr" }

/-- An action with a malformed date. -/
def actBad : Action := mkAction "commentCard" "nope" "Ann" "body"

/-- A card with two comment actions, one of them with a malformed date:
sorting the comments panics. -/
def cardCmtBad : Card :=
  { mkCard "CB" "2024-01-05T10:00:00Z" with actionsR := .ok [actEarly, actBad] }

/-! ### Helper lemmas -/

theorem checkItemsText_eq_join (l : List CheckItem) :
    checkItemsText l = joinS (l.map checkItemLine) := by
  induction l with
  | nil => rfl
  | cons i rest ih => simp [checkItemsText, checkItemLine, joinS, ih]

theorem bracket_lines_ne (n : String) :
    ("- [ ] " ++ n ++ "\n") ≠ ("- [x] " ++ n ++ "\n") := by
  intro h
  have h2 : (("- [ ] " ++ n ++ "\n").data.get? 3) = (("- [x] " ++ n ++ "\n").data.get? 3) :=
    congrArg (fun s => s.data.get? 3) h
  have e1 : ("- [ ] " ++ n ++ "\n").data.get? 3 = some ' ' := rfl
  have e2 : ("- [x] " ++ n ++ "\n").data.get? 3 = some 'x' := rfl
  rw [e1, e2] at h2
  cases h2

theorem getList_ok (b : Board) (f : String) (ls : List TrelloList)
    (h : b.listsR = Except.ok ls) :
    getList b f = (match ls.find? (fun l => l.name == f) with
      | some l => Except.ok l
      | none => Except.error "no matching list found") := by
  unfold getList
  rw [h]
  rfl

theorem find?_append_first {α : Type} (p : α → Bool) (l : α) (ls1 ls2 : List α)
    (h1 : ∀ x ∈ ls1, ¬ p x) (h2 : p l) :
    (ls1 ++ l :: ls2).find? p = some l := by
  induction ls1 with
  | nil => simp [List.find?, h2]
  | cons a rest ih =>
    have ha : ¬ p a := h1 a (by simp)
    simp only [List.cons_append, List.find?]
    rw [Bool.eq_false_iff.mpr ha]
    exact ih (fun x hx => h1 x (by simp [hx]))

/-! ### Claims -/

/-- C10: an `export-boards` run over an empty sequence of board identifiers
(client construction succeeding) succeeds and writes exactly the single
document-level date header line, with no board headers and no cards. -/
theorem exportBoards_noBoards (fb : String → Except String Board) (today : String)
    (cfg : Config) (lf : String) :
    exportBoards fb today cfg [] lf = ("## " ++ today ++ "\n", none) := by
  simp [exportBoards, getBoards, renderBoards, printDate]

/-- C8: the end-to-end scenario: board `"B1"`, list `"Done"`, one card
`"Fix bug"` (last activity `2024-01-05T10:00:00Z`, no labels or members,
description `"Fixed it"`, no attachments or comments, checklist `"QA"` with
`Test`/complete and `Deploy`/incomplete), all show-flags on, produces exactly
the document of the claim. -/
theorem exportBoards_scenarioB1 :
    exportBoards fetchC8 "2024-02-01" cfgAll ["b1"] "Done" =
      ("## 2024-02-01\n### B1\n#### **2024-01-05** [Fix bug](<url>)\n##### - **[]**\nFixed it\n\nQA\n- [x] Test\n- [ ] Deploy\n\n",
        none) := by
  decide

/-- C5: in every rendered checklist, a check item renders as `- [x] {name}`
exactly when its state string is `"complete"`, and as `- [ ] {name}` for
every other state value. -/
theorem printCardChecklist_items (cl : Checklist) :
    printCardChecklist cl = cl.name ++ "\n" ++ joinS (cl.checkItems.map checkItemLine) ++ "\n"
    ∧ ∀ i ∈ cl.checkItems,
        (checkItemLine i = "- [x] " ++ i.name ++ "\n" ↔ i.state = "complete")
        ∧ (i.state ≠ "complete" → checkItemLine i = "- [ ] " ++ i.name ++ "\n") := by
  refine ⟨by simp [printCardChecklist, checkItemsText_eq_join], ?_⟩
  intro i _
  by_cases h : i.state = "complete"
  · simp [checkItemLine, h]
  · refine ⟨?_, fun _ => by simp [checkItemLine, h]⟩
    rw [checkItemLine, if_neg h]
    constructor
    · intro heq
      exact absurd heq (bracket_lines_ne i.name)
    · intro hc
      exact absurd hc h

/-- C5 witness: the `"QA"` checklist of the end-to-end scenario. -/
theorem printCardChecklist_items_witness :
    printCardChecklist ⟨"QA", [⟨"Test", "complete"⟩, ⟨"Deploy", "incomplete"⟩]⟩ =
        "QA" ++ "\n"
          ++ joinS ([(⟨"Test", "complete"⟩ : CheckItem),
              ⟨"Deploy", "incomplete"⟩].map checkItemLine) ++ "\n"
    ∧ ∀ i ∈ [(⟨"Test", "complete"⟩ : CheckItem), ⟨"Deploy", "incomplete"⟩],
        (checkItemLine i = "- [x] " ++ i.name ++ "\n" ↔ i.state = "complete")
        ∧ (i.state ≠ "complete" → checkItemLine i = "- [ ] " ++ i.name ++ "\n") :=
  printCardChecklist_items ⟨"QA", [⟨"Test", "complete"⟩, ⟨"Deploy", "incomplete"⟩]⟩

/-- C2: list resolution scans the board's lists in API order and returns the
first list whose name equals the (non-empty) filter exactly; if none matches
it fails with the no-matching-list error; with duplicate names the first in
API order wins. -/
theorem getList_first_match (b : Board) (f : String) (_hf : f ≠ "") :
    (∀ ls, b.listsR = Except.ok ls → (∀ l ∈ ls, l.name ≠ f) →
        getList b f = Except.error "no matching list found")
    ∧ (∀ ls1 (l : TrelloList) ls2, b.listsR = Except.ok (ls1 ++ l :: ls2) →
        l.name = f → (∀ l2 ∈ ls1, l2.name ≠ f) → getList b f = Except.ok l) := by
  constructor
  · intro ls hls hnone
    have hfind : ls.find? (fun l => l.name == f) = none := by
      rw [List.find?_eq_none]
      intro x hx
      simp [hnone x hx]
    rw [getList_ok b f ls hls, hfind]
  · intro ls1 l ls2 hls hname hpre
    have hfind : (ls1 ++ l :: ls2).find? (fun l => l.name == f) = some l := by
      apply find?_append_first
      · intro x hx
        simp [hpre x hx]
      · simp [hname]
    rw [getList_ok b f (ls1 ++ l :: ls2) hls, hfind]

/-- C2 witness: on a board whose lists are `Todo`, `Done`, `Done` (the two
`Done` lists differing in content), the filter `"Done"` selects the first
`Done` list, and an absent name fails with the no-matching-list error. -/
theorem getList_first_match_witness :
    getList boardW "Done" = Except.ok ⟨"Done", Except.ok []⟩
    ∧ getList boardW "Absent" = Except.error "no matching list found" := by
  constructor
  · exact (getList_first_match boardW "Done" (by decide)).2 [⟨"Todo", Except.ok []⟩]
      ⟨"Done", Except.ok []⟩ [⟨"Done", Except.error "dup"⟩] rfl rfl (by decide)
  · exact (getList_first_match boardW "Absent" (by decide)).1
      [⟨"Todo", Except.ok []⟩, ⟨"Done", Except.ok []⟩, ⟨"Done", Except.error "dup"⟩]
      rfl (by decide)

/-- C3: for every list of cards fetched for export whose last-activity
timestamps all parse, the cards are returned sorted ascending by parsed
last-activity instant — a sorted permutation of whatever order the API
returned them in. -/
theorem getCards_sorted (l : TrelloList) (cards : List Card)
    (hc : l.cardsR = Except.ok cards)
    (hp : ∀ c ∈ cards, (timeParseRFC3339 c.dateLastActivity).isSome) :
    ∃ out, getCards l = Except.ok out
      ∧ List.Perm out cards
      ∧ List.Sorted cardLE out := by
  refine ⟨List.insertionSort cardLE cards, ?_,
    List.perm_insertionSort cardLE cards, List.sorted_insertionSort cardLE cards⟩
  have hbad : ¬ (2 ≤ cards.length ∧ cards.any cardDateBad) := by
    rintro ⟨-, hany⟩
    rw [List.any_eq_true] at hany
    obtain ⟨c, hcmem, hb⟩ := hany
    have hs := hp c hcmem
    rw [cardDateBad, Option.isNone_iff_eq_none] at hb
    rw [hb] at hs
    cases hs
  unfold getCards
  rw [hc]
  simp only [if_neg hbad]

/-- C3 witness: three well-formed cards arriving in the order March,
January, February come out January, February, March. -/
theorem getCards_sorted_witness :
    (∃ out, getCards listS = Except.ok out
      ∧ List.Perm out [cardX, cardY, cardZ]
      ∧ List.Sorted cardLE out)
    ∧ getCards listS = Except.ok [cardY, cardZ, cardX] := by
  constructor
  · exact getCards_sorted listS [cardX, cardY, cardZ] rfl (by decide)
  · decide

/-- C4: the comment section's actions are exactly the card's actions of type
`"commentCard"` (every other type dropped), returned sorted ascending by
parsed timestamp (assuming the kept actions' dates parse). -/
theorem getCardComments_spec (card : Card) (acts : List Action)
    (ha : card.actionsR = Except.ok acts)
    (hp : ∀ a ∈ acts.filter (fun a => a.type == "commentCard"),
      (timeParseRFC3339 a.date).isSome) :
    ∃ out, getCardComments card = Except.ok out
      ∧ List.Perm out (acts.filter (fun a => a.type == "commentCard"))
      ∧ List.Sorted actionLE out := by
  refine ⟨List.insertionSort actionLE (acts.filter (fun a => a.type == "commentCard")), ?_,
    List.perm_insertionSort actionLE _, List.sorted_insertionSort actionLE _⟩
  have hbad : ¬ (2 ≤ (acts.filter (fun a => a.type == "commentCard")).length
      ∧ (acts.filter (fun a => a.type == "commentCard")).any actionDateBad) := by
    rintro ⟨-, hany⟩
    rw [List.any_eq_true] at hany
    obtain ⟨a, hamem, hb⟩ := hany
    have hs := hp a hamem
    rw [actionDateBad, Option.isNone_iff_eq_none] at hb
    rw [hb] at hs
    cases hs
  unfold getCardComments
  rw [ha]
  simp only [if_neg hbad]

/-- C4 witness: of three actions (a late comment, a non-comment update, an
early comment) only the two comments survive, early before late. -/
theorem getCardComments_spec_witness :
    (∃ out, getCardComments cardActs = Except.ok out
      ∧ List.Perm out ([actLate, actOther, actEarly].filter
          (fun a => a.type == "commentCard"))
      ∧ List.Sorted actionLE out)
    ∧ getCardComments cardActs = Except.ok [actEarly, actLate] := by
  constructor
  · exact getCardComments_spec cardActs [actLate, actOther, actEarly] rfl (by decide)
  · decide

theorem splitLinesC_ne_nil (l : List Char) : splitLinesC l ≠ [] := by
  induction l with
  | nil => simp [splitLinesC]
  | cons c rest _ =>
    by_cases h : c = '\n'
    · simp [splitLinesC, h]
    · simp only [splitLinesC, if_neg h]
      cases hs : splitLinesC rest with
      | nil => simp
      | cons a as => simp

theorem splitLinesC_quoteChars (cs : List Char) :
    splitLinesC (quoteChars cs) =
      match splitLinesC cs with
      | [] => []
      | l :: ls => l :: ls.map (fun m => '>' :: ' ' :: m) := by
  induction cs with
  | nil => rfl
  | cons c rest ih =>
    obtain ⟨h0, t0, hrest⟩ : ∃ h0 t0, splitLinesC rest = h0 :: t0 := by
      cases hs : splitLinesC rest with
      | nil => exact absurd hs (splitLinesC_ne_nil rest)
      | cons a as => exact ⟨a, as, rfl⟩
    rw [hrest] at ih
    by_cases h : c = '\n'
    · subst h
      simp only [quoteChars, if_pos rfl]
      simp [splitLinesC, ih, hrest]
    · simp only [quoteChars, if_neg h]
      simp only [splitLinesC, if_neg h, ih, hrest]

theorem linesOf_quoted (s : String) :
    linesOf ("> " ++ replaceNewlines s) = (linesOf s).map (fun l => "> " ++ l) := by
  obtain ⟨h0, t0, hs⟩ : ∃ h0 t0, splitLinesC s.data = h0 :: t0 := by
    cases hx : splitLinesC s.data with
    | nil => exact absurd hx (splitLinesC_ne_nil s.data)
    | cons a as => exact ⟨a, as, rfl⟩
  have hq := splitLinesC_quoteChars s.data
  rw [hs] at hq
  have hdata : ("> " ++ replaceNewlines s).data = '>' :: ' ' :: quoteChars s.data := rfl
  have hpre : ∀ m : List Char, ("> " ++ (⟨m⟩ : String)) = (⟨'>' :: ' ' :: m⟩ : String) :=
    fun _ => rfl
  unfold linesOf
  rw [hdata]
  simp [splitLinesC, hq, hs, hpre, List.map_map, Function.comp]

/-- C6: for every comment action whose date parses, the rendered block is
the header line followed by a leading `"> "`, the body with every internal
newline rewritten to `"\n> "`, and a trailing blank line; consequently every
line of the body appears prefixed by `"> "`. -/
theorem printCardComment_quoting (a : Action) (t : GoTime)
    (ht : timeParseRFC3339 a.date = some t) :
    printCardComment a = Except.ok ("> **" ++ t.formatDate ++ "** - **"
        ++ a.memberCreatorFullName ++ ":**\n"
        ++ "> " ++ replaceNewlines a.dataText ++ "\n\n")
    ∧ linesOf ("> " ++ replaceNewlines a.dataText)
        = (linesOf a.dataText).map (fun l => "> " ++ l) := by
  refine ⟨?_, linesOf_quoted a.dataText⟩
  unfold printCardComment
  rw [ht]

/-- C6 witness: a comment body with an embedded newline, `"line1\nline2"`. -/
theorem printCardComment_quoting_witness :
    printCardComment actW = Except.ok ("> **" ++ (GoTime.mk 2024 1 5 10 0 0).formatDate
        ++ "** - **" ++ actW.memberCreatorFullName ++ ":**\n"
        ++ "> " ++ replaceNewlines actW.dataText ++ "\n\n")
    ∧ linesOf ("> " ++ replaceNewlines actW.dataText)
        = (linesOf actW.dataText).map (fun l => "> " ++ l) :=
  printCardComment_quoting actW ⟨2024, 1, 5, 10, 0, 0⟩ rfl

theorem printCardTitle_ok (c : Card)
    (h : (timeParseRFC3339 c.dateLastActivity).isSome) :
    printCardTitle c = Except.ok (titleBlock c) := by
  obtain ⟨t, ht⟩ := Option.isSome_iff_exists.mp h
  simp only [printCardTitle, titleBlock, ht]

theorem printCardLabelsAndMembers_ok (c : Card) (ms : List Member)
    (hm : c.membersR = Except.ok ms) :
    printCardLabelsAndMembers c = (lmBlock c, none) := by
  simp only [printCardLabelsAndMembers, lmBlock, hm]

/-- C9: the labels-and-members step is not atomic with respect to output:
with the toggle on, the `"##### "` prefix and every backtick-quoted label
name are written before the member fetch; when the member fetch fails the
partial label text remains in the output, the closing `- **[...]**` is never
emitted, and the export stops there with the fetch error. -/
theorem labels_written_before_member_fetch (cfg : Config) (c : Card) (e : String)
    (hs : cfg.showLabelsAndMembers = true)
    (ht : (timeParseRFC3339 c.dateLastActivity).isSome)
    (hm : c.membersR = Except.error e) :
    renderCard cfg c = (titleBlock c ++ ("##### " ++ labelsText c.labels),
      some (Failure.err e))
    ∧ ∀ rest, renderCards cfg (c :: rest)
        = (titleBlock c ++ ("##### " ++ labelsText c.labels), some (Failure.err e)) := by
  have h1 : renderCard cfg c = (titleBlock c ++ ("##### " ++ labelsText c.labels),
      some (Failure.err e)) := by
    simp only [renderCard, printCardTitle_ok c ht, hs, if_true,
      printCardLabelsAndMembers, hm]
  refine ⟨h1, fun rest => ?_⟩
  simp only [renderCards, h1]

/-- C9 witness: a card with labels `red`, `blue` whose member fetch fails
with `"boom"`. -/
theorem labels_written_before_member_fetch_witness :
    renderCard cfgAll cardM = (titleBlock cardM ++ ("##### " ++ labelsText cardM.labels),
      some (Failure.err "boom"))
    ∧ renderCards cfgAll (cardM :: [cardX])
        = (titleBlock cardM ++ ("##### " ++ labelsText cardM.labels),
          some (Failure.err "boom")) :=
  ⟨(labels_written_before_member_fetch cfgAll cardM "boom" rfl (by decide) rfl).1,
   (labels_written_before_member_fetch cfgAll cardM "boom" rfl (by decide) rfl).2 [cardX]⟩

theorem renderComments_ok (cs : List Action)
    (h : ∀ a ∈ cs, (timeParseRFC3339 a.date).isSome) :
    renderComments cs = (joinS (cs.map commentBlock), none) := by
  induction cs with
  | nil => rfl
  | cons a rest ih =>
    obtain ⟨t, ht⟩ := Option.isSome_iff_exists.mp (h a (by simp))
    have hrest := ih (fun x hx => h x (by simp [hx]))
    simp only [renderComments, printCardComment, ht, commentBlock, joinS, List.map, hrest]

/-- C1: for every rendered card the sections come in the fixed order title,
labels-and-members, description, attachments, checklists, comments; the
title is unconditional and each other section appears exactly when its
toggle is set; the whole document opens with the date header and each
board's cards are preceded by its board-name header. -/
theorem export_sections_in_order :
    (∀ (cfg : Config) (c : Card) (ms : List Member) (ats : List Attachment)
        (cls : List Checklist) (cmts : List Action),
      (timeParseRFC3339 c.dateLastActivity).isSome →
      c.membersR = Except.ok ms →
      c.attachmentsR = Except.ok ats →
      c.checklistsR = Except.ok cls →
      getCardComments c = Except.ok cmts →
      (∀ a ∈ cmts, (timeParseRFC3339 a.date).isSome) →
      renderCard cfg c =
        (titleBlock c
          ++ (if cfg.showLabelsAndMembers then lmBlock c else "")
          ++ (if cfg.showDescription then printCardDescription c else "")
          ++ (if cfg.showAttachments then joinS (ats.map printCardAttachment) else "")
          ++ (if cfg.showChecklists then joinS (cls.map printCardChecklist) else "")
          ++ (if cfg.showComments then joinS (cmts.map commentBlock) else ""), none))
    ∧ (∀ (fb : String → Except String Board) (today : String) (cfg : Config)
        (ids : List String) (lf : String) (boards : List Board),
      getBoards fb ids = Except.ok boards →
      exportBoards fb today cfg ids lf =
        ("## " ++ today ++ "\n" ++ (renderBoards cfg lf boards).1,
          (renderBoards cfg lf boards).2))
    ∧ (∀ (cfg : Config) (lf : String) (b : Board) (l : TrelloList) (cards : List Card),
      getList b lf = Except.ok l →
      getCards l = Except.ok cards →
      renderBoard cfg lf b =
        ("### " ++ b.name ++ "\n" ++ (renderCards cfg cards).1,
          (renderCards cfg cards).2)) := by
  refine ⟨?_, ?_, ?_⟩
  · intro cfg c ms ats cls cmts ht hm hat hcl hcm hcd
    have htit := printCardTitle_ok c ht
    have hlm := printCardLabelsAndMembers_ok c ms hm
    have hcmts := renderComments_ok cmts hcd
    obtain ⟨b1, b2, b3, b4, b5⟩ := cfg
    cases b1 <;> cases b2 <;> cases b3 <;> cases b4 <;> cases b5 <;>
      simp [renderCard, htit, hlm, hat, hcl, hcm, hcmts, renderComments,
        getCardAttachments, getCardCheckLists, joinS]
  · intro fb today cfg ids lf boards hb
    simp only [exportBoards, hb, printDate]
  · intro cfg lf b l cards hl hc
    simp only [renderBoard, hl, hc, printBoard]

/-- C1 witness: the end-to-end scenario data exercises all three parts. -/
theorem export_sections_in_order_witness :
    renderCard cfgAll cardC8 =
      (titleBlock cardC8
        ++ (if cfgAll.showLabelsAndMembers then lmBlock cardC8 else "")
        ++ (if cfgAll.showDescription then printCardDescription cardC8 else "")
        ++ (if cfgAll.showAttachments then joinS (([] : List Attachment).map printCardAttachment) else "")
        ++ (if cfgAll.showChecklists then
              joinS ([(⟨"QA", [⟨"Test", "complete"⟩, ⟨"Deploy", "incomplete"⟩]⟩ : Checklist)].map printCardChecklist) else "")
        ++ (if cfgAll.showComments then joinS (([] : List Action).map commentBlock) else ""), none)
    ∧ exportBoards fetchC8 "2024-02-01" cfgAll ["b1"] "Done" =
        ("## " ++ "2024-02-01" ++ "\n" ++ (renderBoards cfgAll "Done" [boardB1]).1,
          (renderBoards cfgAll "Done" [boardB1]).2)
    ∧ renderBoard cfgAll "Done" boardB1 =
        ("### " ++ boardB1.name ++ "\n" ++ (renderCards cfgAll [cardC8]).1,
          (renderCards cfgAll [cardC8]).2) :=
  ⟨export_sections_in_order.1 cfgAll cardC8 [] []
      [⟨"QA", [⟨"Test", "complete"⟩, ⟨"Deploy", "incomplete"⟩]⟩] []
      (by decide) rfl rfl rfl (by decide) (by decide),
   export_sections_in_order.2.1 fetchC8 "2024-02-01" cfgAll ["b1"] "Done" [boardB1]
      (by decide),
   export_sections_in_order.2.2 cfgAll "Done" boardB1 listC8 [cardC8]
      (by decide) (by decide)⟩

/-- C7 counterexample: a list holding two cards, one with the malformed
last-activity date `"not-a-date"`.  The export aborts, but through the sort
comparator's `log.Panic` — the failure is a panic, not a returned error
value as the claim states. -/
theorem sort_parse_error_is_panic :
    exportBoards fetchBad "2024-02-01" cfgNone ["b1"] "Done"
        = ("## 2024-02-01\n### BB\n", some (Failure.panic "time parse error"))
    ∧ Failure.isErr (Failure.panic "time parse error") = false := by
  decide

/-- C7 (amended): every retrieval error (board, list, card, members,
attachments, checklists, actions) and every timestamp-parse error aborts the
export immediately, with no partial-card recovery and no retry; retrieval
errors and the parse errors of `printCardTitle` and `printCardComment` are
unwound as returned error values, while a malformed timestamp met inside the
sort comparators of `getCards` or `getCardComments` aborts via `log.Panic`
rather than a returned error. -/
theorem error_propagation_amended :
    (∀ (fb : String → Except String Board) (today : String) (cfg : Config)
        (ids : List String) (lf e : String),
      getBoards fb ids = Except.error e →
      exportBoards fb today cfg ids lf = ("## " ++ today ++ "\n", some (Failure.err e)))
    ∧ (∀ (cfg : Config) (lf : String) (b : Board) (e : String),
        b.listsR = Except.error e →
        renderBoard cfg lf b = ("### " ++ b.name ++ "\n", some (Failure.err e)))
    ∧ (∀ (l : TrelloList) (e : String), l.cardsR = Except.error e →
        getCards l = Except.error (Failure.err e))
    ∧ (∀ (l : TrelloList) (cards : List Card), l.cardsR = Except.ok cards →
        2 ≤ cards.length → cards.any cardDateBad = true →
        getCards l = Except.error (Failure.panic "time parse error"))
    ∧ (∀ (cfg : Config) (c : Card), cardDateBad c = true →
        renderCard cfg c = ("", some (Failure.err "cannot parse time")))
    ∧ (∀ (cfg : Config) (c : Card) (e : String), cfg.showLabelsAndMembers = true →
        (timeParseRFC3339 c.dateLastActivity).isSome →
        c.membersR = Except.error e → (renderCard cfg c).2 = some (Failure.err e))
    ∧ (∀ (cfg : Config) (c : Card) (ms : List Member) (e : String),
        (timeParseRFC3339 c.dateLastActivity).isSome →
        c.membersR = Except.ok ms → cfg.showAttachments = true →
        c.attachmentsR = Except.error e → (renderCard cfg c).2 = some (Failure.err e))
    ∧ (∀ (cfg : Config) (c : Card) (ms : List Member) (ats : List Attachment)
        (e : String),
        (timeParseRFC3339 c.dateLastActivity).isSome →
        c.membersR = Except.ok ms → c.attachmentsR = Except.ok ats →
        cfg.showChecklists = true → c.checklistsR = Except.error e →
        (renderCard cfg c).2 = some (Failure.err e))
    ∧ (∀ (cfg : Config) (c : Card) (ms : List Member) (ats : List Attachment)
        (cls : List Checklist) (e : String),
        (timeParseRFC3339 c.dateLastActivity).isSome →
        c.membersR = Except.ok ms → c.attachmentsR = Except.ok ats →
        c.checklistsR = Except.ok cls → cfg.showComments = true →
        c.actionsR = Except.error e → (renderCard cfg c).2 = some (Failure.err e))
    ∧ (∀ (c : Card) (acts : List Action), c.actionsR = Except.ok acts →
        2 ≤ (acts.filter (fun a => a.type == "commentCard")).length →
        (acts.filter (fun a => a.type == "commentCard")).any actionDateBad = true →
        getCardComments c = Except.error (Failure.panic "time parse error"))
    ∧ (∀ (a : Action) (rest : List Action), actionDateBad a = true →
        renderComments (a :: rest) = ("", some (Failure.err "cannot parse time")))
    ∧ (∀ (cfg : Config) (c : Card) (rest : List Card) (s : String) (f : Failure),
        renderCard cfg c = (s, some f) → renderCards cfg (c :: rest) = (s, some f))
    ∧ (∀ (cfg : Config) (lf : String) (b : Board) (rest : List Board) (s : String)
        (f : Failure),
        renderBoard cfg lf b = (s, some f) →
        renderBoards cfg lf (b :: rest) = (s, some f)) := by
  refine ⟨?_, ?_, ?_, ?_, ?_, ?_, ?_, ?_, ?_, ?_, ?_, ?_, ?_⟩
  · intro fb today cfg ids lf e hb
    simp only [exportBoards, hb, printDate]
  · intro cfg lf b e hb
    have hgl : getList b lf = Except.error e := by
      unfold getList
      rw [hb]
      rfl
    simp only [renderBoard, hgl, printBoard]
  · intro l e hc
    unfold getCards
    rw [hc]
  · intro l cards hc hlen hany
    simp only [getCards, hc]
    rw [if_pos (show 2 ≤ cards.length ∧ cards.any cardDateBad = true
      from ⟨hlen, hany⟩)]
  · intro cfg c h5
    have hnone : timeParseRFC3339 c.dateLastActivity = none :=
      Option.isNone_iff_eq_none.mp h5
    simp only [renderCard, printCardTitle, hnone]
  · intro cfg c e hs ht hm
    simp only [renderCard, printCardTitle_ok c ht, hs, if_true,
      printCardLabelsAndMembers, hm]
  · intro cfg c ms e ht hm hs he
    obtain ⟨b1, b2, b3, b4, b5⟩ := cfg
    subst hs
    cases b1 <;> cases b2 <;> cases b3 <;> cases b4 <;>
      simp [renderCard, printCardTitle_ok _ ht, printCardLabelsAndMembers_ok _ ms hm,
        getCardAttachments, he]
  · intro cfg c ms ats e ht hm hat hs he
    obtain ⟨b1, b2, b3, b4, b5⟩ := cfg
    subst hs
    cases b1 <;> cases b2 <;> cases b4 <;> cases b5 <;>
      simp [renderCard, printCardTitle_ok _ ht, printCardLabelsAndMembers_ok _ ms hm,
        getCardAttachments, getCardCheckLists, hat, he]
  · intro cfg c ms ats cls e ht hm hat hcl hs he
    obtain ⟨b1, b2, b3, b4, b5⟩ := cfg
    subst hs
    cases b1 <;> cases b2 <;> cases b3 <;> cases b5 <;>
      simp [renderCard, printCardTitle_ok _ ht, printCardLabelsAndMembers_ok _ ms hm,
        getCardAttachments, getCardCheckLists, getCardComments, hat, hcl, he]
  · intro c acts ha hlen hany
    simp only [getCardComments, ha]
    rw [if_pos (show 2 ≤ (acts.filter (fun a => a.type == "commentCard")).length
      ∧ (acts.filter (fun a => a.type == "commentCard")).any actionDateBad = true
      from ⟨hlen, hany⟩)]
  · intro a rest h11
    have hnone : timeParseRFC3339 a.date = none := Option.isNone_iff_eq_none.mp h11
    simp only [renderComments, printCardComment, hnone]
  · intro cfg c rest s f h12
    simp only [renderCards, h12]
  · intro cfg lf b rest s f h13
    simp only [renderBoards, h13]

/-- C7 witness: each propagation fact at a concrete failing input. -/
theorem error_propagation_amended_witness :
    exportBoards fetchErr "2024-02-01" cfgNone ["b1"] "Done"
        = ("## " ++ "2024-02-01" ++ "\n", some (Failure.err "no board"))
    ∧ renderBoard cfgNone "Done" boardLE
        = ("### " ++ boardLE.name ++ "\n", some (Failure.err "neterr"))
    ∧ getCards listCE = Except.error (Failure.err "cards err")
    ∧ getCards listBad = Except.error (Failure.panic "time parse error")
    ∧ renderCard cfgAll cardBad = ("", some (Failure.err "cannot parse time"))
    ∧ (renderCard cfgAll cardM).2 = some (Failure.err "boom")
    ∧ (renderCard cfgAll cardAttE).2 = some (Failure.err "atterr")
    ∧ (renderCard cfgAll cardClE).2 = some (Failure.err "clerr")
    ∧ (renderCard cfgAll cardActE).2 = some (Failure.err "acterr")
    ∧ getCardComments cardCmtBad = Except.error (Failure.panic "time parse error")
    ∧ renderComments [actBad] = ("", some (Failure.err "cannot parse time"))
    ∧ renderCards cfgAll (cardBad :: [cardX])
        = ("", some (Failure.err "cannot parse time"))
    ∧ renderBoards cfgNone "Done" (boardLE :: [])
        = ("### " ++ boardLE.name ++ "\n", some (Failure.err "neterr")) :=
  ⟨error_propagation_amended.1 fetchErr "2024-02-01" cfgNone ["b1"] "Done" "no board"
      (by decide),
   error_propagation_amended.2.1 cfgNone "Done" boardLE "neterr" rfl,
   error_propagation_amended.2.2.1 listCE "cards err" rfl,
   error_propagation_amended.2.2.2.1 listBad [cardX, cardBad] rfl (by decide) (by decide),
   error_propagation_amended.2.2.2.2.1 cfgAll cardBad (by decide),
   error_propagation_amended.2.2.2.2.2.1 cfgAll cardM "boom" rfl (by decide) rfl,
   error_propagation_amended.2.2.2.2.2.2.1 cfgAll cardAttE [] "atterr" (by decide)
      rfl rfl rfl,
   error_propagation_amended.2.2.2.2.2.2.2.1 cfgAll cardClE [] [] "clerr" (by decide)
      rfl rfl rfl rfl,
   error_propagation_amended.2.2.2.2.2.2.2.2.1 cfgAll cardActE [] [] [] "acterr"
      (by decide) rfl rfl rfl rfl rfl,
   error_propagation_amended.2.2.2.2.2.2.2.2.2.1 cardCmtBad [actEarly, actBad] rfl
      (by decide) (by decide),
   error_propagation_amended.2.2.2.2.2.2.2.2.2.2.1 actBad [] (by decide),
   error_propagation_amended.2.2.2.2.2.2.2.2.2.2.2.1 cfgAll cardBad [cardX] ""
      (Failure.err "cannot parse time") (by decide),
   error_propagation_amended.2.2.2.2.2.2.2.2.2.2.2.2 cfgNone "Done" boardLE [] _
      (Failure.err "neterr") (by decide)⟩

end Trello2md
